import Mathlib

/-!
# Verification of the configfilter store actor

A shallow embedding of the `configfilter` Go package: the route-set algebra
(`uniqueRoutes`, `removeRoutes`, `changedRoutes`, `replaceRoutes`,
`upsertRoutes`, `idsToRoutes`, `routesToIDs`), the store actor's request
handlers (`getRoot`, `putRoot`, `patchInRoot`, `deleteFromRoot`, `get`, `put`,
`patch`, `del`, `handle`), and the actor run loop with its single-slot
coalescing update relay (`run`, `LoadAll`, `LoadUpdate`, `Close`), modelled as
a step function on an explicit actor state.
-/

namespace Configfilter

/-- An eskip route: `Id` plus the rest of the route definition (opaque to the
core; `body` stands for the serialized route expression, so two routes with
the same id have equal `String()` forms exactly when their bodies agree). -/
structure Route where
  id : String
  body : String
deriving DecidableEq

/-- `routesToIDs` from routes.go: the ids of the routes, in order. -/
def routesToIDs (r : List Route) : List String :=
  r.map (fun ri => ri.id)

/-- The inner `for … if …Id == …Id { found = true; break }` loop shared by the
route-set helpers: does the list contain a route with the given id? -/
def hasId (l : List Route) (i : String) : Bool :=
  l.any (fun ri => ri.id == i)

/-- `uniqueRoutes` from routes.go: drop later duplicates by id, keeping the
first occurrence, in first-seen order. -/
def uniqueRoutes (r : List Route) : List Route :=
  r.foldl (fun u ri => if hasId u ri.id then u else u ++ [ri]) []

/-- `removeRoutes` from routes.go: the routes of `a` whose id does not occur
in `b`. -/
def removeRoutes (a b : List Route) : List Route :=
  a.foldl (fun c ai => if hasId b ai.id then c else c ++ [ai]) []

/-- `changedRoutes` from routes.go: for each route of `prev`, the first route
of `next` with the same id, when its serialized form differs (the ids being
equal, exactly when the bodies differ). -/
def changedRoutes (prev next : List Route) : List Route :=
  prev.foldl
    (fun changed pi =>
      match next.find? (fun ni => ni.id == pi.id) with
      | some ni => if ni.body = pi.body then changed else changed ++ [ni]
      | none => changed)
    []

/-- `idsToRoutes` from routes.go: for each id, the first route of `from` with
that id, if any. -/
def idsToRoutes (ids : List String) (from_ : List Route) : List Route :=
  ids.foldl
    (fun routes i =>
      match from_.find? (fun r => r.id == i) with
      | some r => routes ++ [r]
      | none => routes)
    []

/-- `replaceRoutes` from routes.go: full-table replace plan
`(next, upserted, deletedIDs)`. -/
def replaceRoutes (prev next : List Route) :
    List Route × List Route × List String :=
  let deletedRoutes := removeRoutes prev next
  let insertedRoutes := removeRoutes next prev
  let updatedRoutes := changedRoutes prev next
  let upserted := insertedRoutes ++ updatedRoutes
  let deletedIDs := routesToIDs deletedRoutes
  (next, upserted, deletedIDs)

/-- `upsertRoutes` from routes.go: upsert plan `(next, upserted)`. -/
def upsertRoutes (to_ from_ : List Route) : List Route × List Route :=
  let insertedRoutes := removeRoutes from_ to_
  let updatedRoutes := changedRoutes to_ from_
  let upserted := insertedRoutes ++ updatedRoutes
  let unchangedRoutes := removeRoutes to_ upserted
  let next := unchangedRoutes ++ upserted
  (next, upserted)

/-! ## Store actor state and request protocol (spec.go) -/

/-- The state owned by the `Spec` actor: the fixed default routes and the
mutable working set `routes` (the channels of the Go struct become the step
model below). -/
structure SpecState where
  defaults : List Route
  routes : List Route
deriving DecidableEq

/-- The `request` struct of spec.go, restricted to the fields the actor
consults (`accept`, `pretty` and the response channel are transport
concerns). -/
structure Request where
  id : String
  method : String
  routes : List Route
  ids : List String
deriving DecidableEq

/-- The error kinds a response can carry out of the actor's handlers. -/
inductive RespErr where
  | notFound
  | badRequest (msg : String)
deriving DecidableEq

/-- The `response` struct of spec.go; the zero value has no content, no
routes and no error. -/
structure Response where
  withContent : Bool := false
  routes : List Route := []
  err : Option RespErr := none
deriving DecidableEq

/-- The `updateMessage` struct of spec.go. The only error value ever put in
its `err` field is `errMissedUpdate`, so the field is a flag here. -/
structure UpdateMessage where
  routes : List Route := []
  deletedIDs : List String := []
  err : Bool := false
deriving DecidableEq

/-- `updateMessage.hasData` from spec.go. -/
def UpdateMessage.hasData (m : UpdateMessage) : Bool :=
  !m.routes.isEmpty || !m.deletedIDs.isEmpty || m.err

/-- The `updateMessage{err: errMissedUpdate}` value stored in the relay slot
when a second diff is committed before the first was consumed. -/
def missedMessage : UpdateMessage :=
  { err := true }

/-! ## Request handlers (spec.go) -/

/-- `(*Spec).getRoot`: reads `routes ++ defaults`, no state change. -/
def getRoot (s : SpecState) (_ : Request) : Response :=
  { withContent := true, routes := s.routes ++ s.defaults }

/-- `(*Spec).putRoot`: replace the working set by the supplied set,
deduplicated and stripped of defaults. -/
def putRoot (s : SpecState) (req : Request) : SpecState × UpdateMessage :=
  let routes := uniqueRoutes req.routes
  let routes := removeRoutes routes s.defaults
  let (next, upserted, deletedIDs) := replaceRoutes s.routes routes
  ({ s with routes := next }, { routes := upserted, deletedIDs := deletedIDs })

/-- `(*Spec).patchInRoot`: upsert the supplied set, deduplicated and stripped
of defaults, into the working set. -/
def patchInRoot (s : SpecState) (req : Request) : SpecState × UpdateMessage :=
  let routes := uniqueRoutes req.routes
  let routes := removeRoutes routes s.defaults
  let (next, upserted) := upsertRoutes s.routes routes
  ({ s with routes := next }, { routes := upserted })

/-- `(*Spec).deleteFromRoot`: delete by ids and/or supplied routes; resolve
ids against the working set, append supplied routes, deduplicate, strip
defaults, drop candidates not currently present (the double subtraction),
then remove the rest. -/
def deleteFromRoot (s : SpecState) (req : Request) : SpecState × UpdateMessage :=
  let routes := idsToRoutes req.ids s.routes
  let routes := routes ++ req.routes
  let routes := uniqueRoutes routes
  let routes := removeRoutes routes s.defaults
  let routes := removeRoutes routes (removeRoutes routes s.routes)
  ({ s with routes := removeRoutes s.routes routes },
   { deletedIDs := routesToIDs routes })

/-- `(*Spec).get`: look the id up across `defaults ++ routes`; `NotFound`
when absent. -/
def get (s : SpecState) (req : Request) : Response :=
  let routes := idsToRoutes [req.id] (s.defaults ++ s.routes)
  if routes.length = 0 then
    { err := some RespErr.notFound }
  else
    { routes := routes, withContent := true }

/-- `req.routes[0].Id = req.id` from `put`/`patch`: force the id of the first
supplied route to the target id. -/
def forceHeadId (id : String) : List Route → List Route
  | [] => []
  | r :: rest => { r with id := id } :: rest

/-- `(*Spec).put`: exactly one route expected, its id forced to the target
id; a default target is accepted but is a no-op; otherwise upsert. -/
def put (s : SpecState) (req : Request) :
    SpecState × Response × UpdateMessage :=
  if req.routes.length ≠ 1 then
    (s, { err := some (RespErr.badRequest "exactly one route expected") }, {})
  else
    let reqRoutes := forceHeadId req.id req.routes
    let routes := removeRoutes reqRoutes s.defaults
    if routes.length = 0 then
      (s, {}, {})
    else
      let (next, upserted) := upsertRoutes s.routes routes
      ({ s with routes := next }, {}, { routes := upserted })

/-- `(*Spec).patch`: `NotFound` when the id is absent from
`defaults ++ routes`; then the same single-route constraint and default
no-op rule as `put`; on success upsert the supplied route. -/
def patch (s : SpecState) (req : Request) :
    SpecState × Response × UpdateMessage :=
  let routes := idsToRoutes [req.id] (s.defaults ++ s.routes)
  if routes.length = 0 then
    (s, { err := some RespErr.notFound }, {})
  else if req.routes.length ≠ 1 then
    (s, { err := some (RespErr.badRequest "exactly one route expected") }, {})
  else
    let routes := removeRoutes routes s.defaults
    if routes.length = 0 then
      (s, {}, {})
    else
      let reqRoutes := forceHeadId req.id req.routes
      let (next, upserted) := upsertRoutes s.routes reqRoutes
      ({ s with routes := next }, {}, { routes := upserted })

/-- `(*Spec).del`: `NotFound` when the id is absent from the working set;
otherwise remove it and publish its id as deleted. -/
def del (s : SpecState) (req : Request) :
    SpecState × Response × UpdateMessage :=
  let routes := idsToRoutes [req.id] s.routes
  if routes.length = 0 then
    (s, { err := some RespErr.notFound }, {})
  else
    ({ s with routes := removeRoutes s.routes routes }, {},
     { deletedIDs := routesToIDs routes })

/-- `(*Spec).handleRoot`: method dispatch for the root path; unmatched
methods leave the zero response and update. -/
def handleRoot (s : SpecState) (req : Request) :
    SpecState × Response × UpdateMessage :=
  match req.method with
  | "HEAD" | "GET" => (s, getRoot s req, {})
  | "PUT" | "POST" =>
      let (s', update) := putRoot s req
      (s', {}, update)
  | "PATCH" =>
      let (s', update) := patchInRoot s req
      (s', {}, update)
  | "DELETE" =>
      let (s', update) := deleteFromRoot s req
      (s', {}, update)
  | _ => (s, {}, {})

/-- `(*Spec).handleIndividual`: method dispatch for an individual route. -/
def handleIndividual (s : SpecState) (req : Request) :
    SpecState × Response × UpdateMessage :=
  match req.method with
  | "HEAD" | "GET" => (s, get s req, {})
  | "PUT" | "POST" => put s req
  | "PATCH" => patch s req
  | "DELETE" => del s req
  | _ => (s, {}, {})

/-- `(*Spec).handle`: root when the request id is empty, individual
otherwise. -/
def handle (s : SpecState) (req : Request) :
    SpecState × Response × UpdateMessage :=
  if req.id = "" then handleRoot s req else handleIndividual s req

/-! ## The actor run loop (`(*Spec).run`) as a step function

The `select` state of `run` is `(updateRelay, updateToSend)`: `relayArmed`
models `updateRelay ≠ nil` (the pending-diff slot is occupied and holds
`updateToSend`), and `running` models that the loop has not yet returned
after observing `stop`. Each `select` arm that can fire becomes an event;
`step` returns `none` for an arm that cannot fire in the given state (a
send on a nil channel, or any arm after the loop has returned). -/

/-- The actor's full run-loop state. -/
structure ActorState where
  spec : SpecState
  relayArmed : Bool
  updateToSend : UpdateMessage
  running : Bool
deriving DecidableEq

/-- One `select` arm of `run` firing: serving a `getAll` receive, the
`updateRelay <- updateToSend` send to a blocked `LoadUpdate` caller, serving
a request, or observing `stop`. -/
inductive Event where
  | getAll
  | deliver
  | request (req : Request)
  | stop
deriving DecidableEq

/-- What the fired arm sends out: the snapshot reply to a `LoadAll` caller,
the update received by a `LoadUpdate` caller, the response to a request, or
nothing. -/
inductive Output where
  | snapshot (msg : UpdateMessage)
  | delivered (msg : UpdateMessage)
  | responded (rsp : Response)
  | quiet
deriving DecidableEq

/-- One iteration of `run`'s `select`: `none` when the arm cannot fire
(after the loop returned, nothing fires at all; `deliver` fires only while
`updateRelay` is non-nil). -/
def step (a : ActorState) (e : Event) : Option (ActorState × Output) :=
  if a.running then
    match e with
    | Event.getAll =>
        some (a, Output.snapshot { routes := a.spec.routes })
    | Event.deliver =>
        if a.relayArmed then
          some ({ a with relayArmed := false }, Output.delivered a.updateToSend)
        else
          none
    | Event.request req =>
        let (s', rsp, update) := handle a.spec req
        let a' :=
          if update.hasData then
            if a.relayArmed then
              { a with spec := s', updateToSend := missedMessage }
            else
              { a with spec := s', relayArmed := true, updateToSend := update }
          else
            { a with spec := s' }
        some (a', Output.responded rsp)
    | Event.stop =>
        some ({ a with running := false }, Output.quiet)
  else
    none

/-- `(*Spec).LoadAll`: send on `getAll`, receive the snapshot message, and
return `defaults ++ m.routes` (`m.err` is always nil there). -/
def LoadAll (a : ActorState) : Option (List Route × ActorState) :=
  match step a Event.getAll with
  | some (a', Output.snapshot m) => some (a.spec.defaults ++ m.routes, a')
  | _ => none

/-- `(*Spec).LoadUpdate`: receive one message from the update relay and
return `(u.routes, u.deletedIDs, u.err)`. -/
def LoadUpdate (a : ActorState) :
    Option ((List Route × List String × Bool) × ActorState) :=
  match step a Event.deliver with
  | some (a', Output.delivered u) => some ((u.routes, u.deletedIDs, u.err), a')
  | _ => none

/-- The working set starts empty (`New` never assigns `routes`). -/
def initialState (defaults : List Route) : ActorState :=
  { spec := { defaults := uniqueRoutes defaults, routes := [] }
  , relayArmed := false
  , updateToSend := {}
  , running := true }

/-! ## Shape lemmas for the route-set algebra -/

theorem hasId_nil (i : String) : hasId [] i = false := rfl

theorem hasId_cons (r : Route) (l : List Route) (i : String) :
    hasId (r :: l) i = (r.id == i || hasId l i) := by
  simp [hasId]

theorem hasId_append (l₁ l₂ : List Route) (i : String) :
    hasId (l₁ ++ l₂) i = (hasId l₁ i || hasId l₂ i) := by
  simp [hasId, List.any_append]

theorem hasId_iff (l : List Route) (i : String) :
    hasId l i = true ↔ i ∈ routesToIDs l := by
  simp [hasId, routesToIDs, List.any_eq_true]

theorem hasId_false_iff (l : List Route) (i : String) :
    hasId l i = false ↔ i ∉ routesToIDs l := by
  rw [← hasId_iff]
  cases hasId l i <;> simp

theorem removeRoutes_eq_filter (a b : List Route) :
    removeRoutes a b = a.filter (fun ai => !hasId b ai.id) := by
  suffices h : ∀ acc : List Route,
      a.foldl (fun c ai => if hasId b ai.id then c else c ++ [ai]) acc =
        acc ++ a.filter (fun ai => !hasId b ai.id) by
    simpa [removeRoutes] using h []
  induction a with
  | nil => intro acc; simp
  | cons x xs ih =>
      intro acc
      by_cases hx : hasId b x.id
      · simp [List.foldl_cons, hx, ih, List.filter_cons]
      · simp only [Bool.not_eq_true] at hx
        simp [List.foldl_cons, hx, ih, List.filter_cons]

theorem mem_removeRoutes (a b : List Route) (x : Route) :
    x ∈ removeRoutes a b ↔ x ∈ a ∧ hasId b x.id = false := by
  rw [removeRoutes_eq_filter]
  simp [List.mem_filter]

theorem idsToRoutes_eq_filterMap (ids : List String) (from_ : List Route) :
    idsToRoutes ids from_ =
      ids.filterMap (fun i => from_.find? (fun r => r.id == i)) := by
  suffices h : ∀ acc : List Route,
      ids.foldl
          (fun routes i =>
            match from_.find? (fun r => r.id == i) with
            | some r => routes ++ [r]
            | none => routes)
          acc =
        acc ++ ids.filterMap (fun i => from_.find? (fun r => r.id == i)) by
    simpa [idsToRoutes] using h []
  induction ids with
  | nil => intro acc; simp
  | cons i rest ih =>
      intro acc
      cases hf : from_.find? (fun r => r.id == i) with
      | none => simp [List.foldl_cons, hf, ih, List.filterMap_cons]
      | some r => simp [List.foldl_cons, hf, ih, List.filterMap_cons]

theorem mem_idsToRoutes (ids : List String) (from_ : List Route) (x : Route) :
    x ∈ idsToRoutes ids from_ → x ∈ from_ ∧ x.id ∈ ids := by
  rw [idsToRoutes_eq_filterMap]
  intro hx
  rcases List.mem_filterMap.mp hx with ⟨i, hi, hfind⟩
  have hmem := List.mem_of_find?_eq_some hfind
  have hid := List.find?_some hfind
  simp only [beq_iff_eq] at hid
  exact ⟨hmem, hid ▸ hi⟩

theorem idsToRoutes_single (i : String) (from_ : List Route) :
    idsToRoutes [i] from_ =
      match from_.find? (fun r => r.id == i) with
      | some r => [r]
      | none => [] := by
  rw [idsToRoutes_eq_filterMap]
  cases hf : from_.find? (fun r => r.id == i) <;>
    simp [List.filterMap_cons, hf]

theorem idsToRoutes_single_nil_iff (i : String) (from_ : List Route) :
    idsToRoutes [i] from_ = [] ↔ hasId from_ i = false := by
  rw [idsToRoutes_single]
  cases hf : from_.find? (fun r => r.id == i) with
  | none =>
      simp only [List.find?_eq_none] at hf
      constructor
      · intro _
        rw [hasId_false_iff]
        simp only [routesToIDs, List.mem_map]
        rintro ⟨r, hr, hrid⟩
        exact absurd (beq_iff_eq.mpr hrid) (by simpa using hf r hr)
      · intro _; rfl
  | some r =>
      have hid := List.find?_some hf
      simp only [beq_iff_eq] at hid
      have hmem := List.mem_of_find?_eq_some hf
      constructor
      · intro h; cases h
      · intro h
        rw [hasId_false_iff] at h
        exact absurd (by
          simp only [routesToIDs, List.mem_map]
          exact ⟨r, hmem, hid⟩) h

theorem changedRoutes_eq_filterMap (prev next : List Route) :
    changedRoutes prev next =
      prev.filterMap (fun pi =>
        match next.find? (fun ni => ni.id == pi.id) with
        | some ni => if ni.body = pi.body then none else some ni
        | none => none) := by
  suffices h : ∀ acc : List Route,
      prev.foldl
          (fun changed pi =>
            match next.find? (fun ni => ni.id == pi.id) with
            | some ni =>
                if ni.body = pi.body then changed else changed ++ [ni]
            | none => changed)
          acc =
        acc ++ prev.filterMap (fun pi =>
          match next.find? (fun ni => ni.id == pi.id) with
          | some ni => if ni.body = pi.body then none else some ni
          | none => none) by
    simpa [changedRoutes] using h []
  induction prev with
  | nil => intro acc; simp
  | cons p rest ih =>
      intro acc
      cases hf : next.find? (fun ni => ni.id == p.id) with
      | none => simp [List.foldl_cons, hf, ih, List.filterMap_cons]
      | some ni =>
          by_cases hb : ni.body = p.body
          · simp [List.foldl_cons, hf, hb, ih, List.filterMap_cons]
          · simp [List.foldl_cons, hf, hb, ih, List.filterMap_cons]

theorem mem_changedRoutes (prev next : List Route) (x : Route) :
    x ∈ changedRoutes prev next → x ∈ next := by
  rw [changedRoutes_eq_filterMap]
  intro hx
  rcases List.mem_filterMap.mp hx with ⟨p, _, hp⟩
  cases hf : next.find? (fun ni => ni.id == p.id) with
  | none => simp only [hf] at hp; cases hp
  | some ni =>
      simp only [hf] at hp
      by_cases hb : ni.body = p.body
      · simp [hb] at hp
      · simp only [if_neg hb, Option.some.injEq] at hp
        exact hp ▸ List.mem_of_find?_eq_some hf

theorem beq_id_comm (a b : String) : (a == b) = (b == a) := by
  by_cases h : a = b
  · simp [h]
  · have h' : ¬b = a := fun hh => h hh.symm
    simp [h, h']

/-- The spec's `unique(set)`, written from its words: drop later duplicates
by id, keep first-seen order. -/
def specUnique : List Route → List Route
  | [] => []
  | r :: rest => r :: (specUnique rest).filter (fun x => !(x.id == r.id))

theorem uniqueRoutes_foldl (l : List Route) :
    ∀ acc : List Route,
      l.foldl (fun u ri => if hasId u ri.id then u else u ++ [ri]) acc =
        acc ++ (specUnique l).filter (fun x => !hasId acc x.id) := by
  induction l with
  | nil => intro acc; simp [specUnique]
  | cons r rest ih =>
      intro acc
      rw [List.foldl_cons]
      by_cases hr : hasId acc r.id
      · rw [if_pos hr, ih acc, specUnique, List.filter_cons]
        have hq : (!hasId acc r.id) = false := by simp [hr]
        rw [hq]
        simp only [Bool.false_eq_true, if_false, List.filter_filter]
        congr 1
        apply List.filter_congr
        intro x _
        by_cases hx : hasId acc x.id
        · simp [hx]
        · have hne : (x.id == r.id) = false := by
            rw [beq_eq_false_iff_ne]
            intro hid
            exact hx (hid ▸ hr)
          simp [hx, hne]
      · rw [if_neg hr, ih (acc ++ [r]), specUnique, List.filter_cons]
        have hq : (!hasId acc r.id) = true := by
          simp only [Bool.not_eq_true'] at *
          simpa using hr
        rw [hq]
        simp only [if_true, List.filter_filter, List.append_assoc,
          List.singleton_append]
        congr 2
        apply List.filter_congr
        intro x _
        rw [hasId_append, hasId_cons, hasId_nil, beq_id_comm r.id x.id]
        cases hacc : hasId acc x.id <;> cases hxr : x.id == r.id <;> simp

theorem uniqueRoutes_eq_specUnique (l : List Route) :
    uniqueRoutes l = specUnique l := by
  rw [uniqueRoutes, uniqueRoutes_foldl l []]
  simp [hasId_nil]

theorem hasId_iff_exists (l : List Route) (i : String) :
    hasId l i = true ↔ ∃ r ∈ l, r.id = i := by
  rw [hasId_iff]
  simp [routesToIDs]

/-- The double-subtraction idiom of `deleteFromRoot`: removing from `c` the
candidates not present in `rs` keeps exactly the candidates present in
`rs`. -/
theorem removeRoutes_double (c rs : List Route) :
    removeRoutes c (removeRoutes c rs) = c.filter (fun x => hasId rs x.id) := by
  rw [removeRoutes_eq_filter, removeRoutes_eq_filter]
  apply List.filter_congr
  intro x hx
  by_cases h : hasId rs x.id
  · rw [h, Bool.not_eq_true']
    rw [hasId_false_iff]
    simp only [routesToIDs, List.mem_map]
    rintro ⟨y, hy, hyx⟩
    rw [List.mem_filter] at hy
    rw [Bool.not_eq_true'] at hy
    rw [hyx] at hy
    exact absurd h (by simp [hy.2])
  · have h' : hasId rs x.id = false := by simpa using h
    rw [h']
    have hxN : x ∈ c.filter (fun y => !hasId rs y.id) := by
      rw [List.mem_filter]
      exact ⟨hx, by simp [h']⟩
    have : hasId (c.filter (fun y => !hasId rs y.id)) x.id = true :=
      (hasId_iff_exists _ _).mpr ⟨x, hxN, rfl⟩
    simp [this]

/-- Every route of the upsert delta comes from the supplied set. -/
theorem upserted_mem_from (to_ from_ : List Route) (x : Route) :
    x ∈ (upsertRoutes to_ from_).2 → x ∈ from_ := by
  intro hx
  simp only [upsertRoutes, List.mem_append] at hx
  cases hx with
  | inl h => exact ((mem_removeRoutes _ _ _).mp h).1
  | inr h => exact mem_changedRoutes _ _ _ h

/-- Every route of the upsert result comes from the prior set or the
supplied set. -/
theorem upsert_next_mem (to_ from_ : List Route) (x : Route) :
    x ∈ (upsertRoutes to_ from_).1 → x ∈ to_ ∨ x ∈ from_ := by
  intro hx
  simp only [upsertRoutes, List.mem_append] at hx
  rcases hx with h | h | h
  · exact Or.inl ((mem_removeRoutes _ _ _).mp h).1
  · exact Or.inr ((mem_removeRoutes _ _ _).mp h).1
  · exact Or.inr (mem_changedRoutes _ _ _ h)

/-- A prior route whose id is absent from the supplied set survives an
upsert untouched. -/
theorem upsert_frame (to_ from_ : List Route) (w : Route)
    (hw : w ∈ to_) (habs : hasId from_ w.id = false) :
    w ∈ (upsertRoutes to_ from_).1 := by
  simp only [upsertRoutes, List.mem_append]
  left
  rw [mem_removeRoutes]
  refine ⟨hw, ?_⟩
  rw [hasId_false_iff] at habs ⊢
  simp only [routesToIDs, List.mem_map] at habs ⊢
  rintro ⟨y, hy, hyw⟩
  have hyf : y ∈ from_ := upserted_mem_from to_ from_ y hy
  exact habs ⟨y, hyf, hyw⟩

/-! ## Error paths leave the state untouched -/

theorem put_error_frame (s : SpecState) (req : Request) :
    (put s req).2.1.err ≠ none → (put s req).1 = s ∧ (put s req).2.2 = {} := by
  by_cases h1 : req.routes.length ≠ 1
  · intro _
    constructor <;> simp [put, h1]
  · by_cases h2 : (removeRoutes (forceHeadId req.id req.routes) s.defaults).length = 0
    · intro _
      constructor <;> simp [put, h1, h2]
    · intro herr
      exact absurd (by simp [put, h1, h2]) herr

theorem patch_error_frame (s : SpecState) (req : Request) :
    (patch s req).2.1.err ≠ none →
      (patch s req).1 = s ∧ (patch s req).2.2 = {} := by
  by_cases h1 : (idsToRoutes [req.id] (s.defaults ++ s.routes)).length = 0
  · intro _
    constructor <;> simp [patch, h1]
  · by_cases h2 : req.routes.length ≠ 1
    · intro _
      constructor <;> simp [patch, h1, h2]
    · by_cases h3 :
        (removeRoutes (idsToRoutes [req.id] (s.defaults ++ s.routes)) s.defaults).length = 0
      · intro _
        constructor <;> simp [patch, h1, h2, h3]
      · intro herr
        exact absurd (by simp [patch, h1, h2, h3]) herr

theorem del_error_frame (s : SpecState) (req : Request) :
    (del s req).2.1.err ≠ none → (del s req).1 = s ∧ (del s req).2.2 = {} := by
  by_cases h1 : (idsToRoutes [req.id] s.routes).length = 0
  · intro _
    constructor <;> simp [del, h1]
  · intro herr
    exact absurd (by simp [del, h1]) herr

theorem handleRoot_err_none (s : SpecState) (req : Request) :
    (handleRoot s req).2.1.err = none := by
  rw [handleRoot]
  split
  all_goals rfl

theorem handleIndividual_error_frame (s : SpecState) (req : Request) :
    (handleIndividual s req).2.1.err ≠ none →
      (handleIndividual s req).1 = s ∧ (handleIndividual s req).2.2 = {} := by
  intro herr
  rw [handleIndividual] at herr ⊢
  split at herr
  · exact ⟨rfl, rfl⟩
  · exact ⟨rfl, rfl⟩
  · exact put_error_frame s req herr
  · exact put_error_frame s req herr
  · exact patch_error_frame s req herr
  · exact del_error_frame s req herr
  · exact absurd rfl herr

/-- Any handler that reports an error leaves the state exactly as it was and
produces the zero update message. -/
theorem handle_error_frame (s : SpecState) (req : Request) :
    (handle s req).2.1.err ≠ none →
      (handle s req).1 = s ∧ (handle s req).2.2 = {} := by
  intro herr
  rw [handle] at herr ⊢
  by_cases hid : req.id = ""
  · rw [if_pos hid] at herr ⊢
    exact absurd (handleRoot_err_none s req) herr
  · rw [if_neg hid] at herr ⊢
    exact handleIndividual_error_frame s req herr

theorem mem_specUnique_sub (l : List Route) (x : Route) :
    x ∈ specUnique l → x ∈ l := by
  induction l with
  | nil => intro h; cases h
  | cons r rest ih =>
      intro h
      rw [specUnique] at h
      rcases List.mem_cons.mp h with h | h
      · exact h ▸ List.mem_cons_self r rest
      · exact List.mem_cons_of_mem r (ih (List.mem_filter.mp h).1)

theorem mem_uniqueRoutes_sub (l : List Route) (x : Route) :
    x ∈ uniqueRoutes l → x ∈ l := by
  rw [uniqueRoutes_eq_specUnique]
  exact mem_specUnique_sub l x

/-! ## Claim theorems -/

/-- C7: every operation that returns an error (NotFound from Get/Patch/Delete,
BadRequest from Put/Patch) leaves the working set exactly as it was and
publishes no diff: errors never commit a partial mutation. -/
theorem error_requests_never_commit (s : SpecState) (req : Request)
    (herr : (handle s req).2.1.err ≠ none) :
    (handle s req).1 = s ∧ (handle s req).2.2.hasData = false := by
  obtain ⟨h1, h2⟩ := handle_error_frame s req herr
  exact ⟨h1, by rw [h2]; rfl⟩

/-- Witness for C7: deleting a route absent from the working set reports an
error and changes nothing. -/
theorem error_requests_never_commit_witness :
    (handle ⟨[⟨"A", "a"⟩], [⟨"p", "1"⟩]⟩ ⟨"x", "DELETE", [], []⟩).2.1.err ≠ none ∧
    ((handle ⟨[⟨"A", "a"⟩], [⟨"p", "1"⟩]⟩ ⟨"x", "DELETE", [], []⟩).1 =
        ⟨[⟨"A", "a"⟩], [⟨"p", "1"⟩]⟩ ∧
      (handle ⟨[⟨"A", "a"⟩], [⟨"p", "1"⟩]⟩ ⟨"x", "DELETE", [], []⟩).2.2.hasData = false) :=
  ⟨by decide, error_requests_never_commit _ _ (by decide)⟩

/-- C9: `LoadAll` (takeSnapshot) replies with the defaults and the full
current working set and leaves the actor state — in particular the pending
diff slot — exactly unchanged, so the next `LoadUpdate` is unaffected. -/
theorem snapshot_leaves_slot_unchanged (a : ActorState)
    (hrun : a.running = true) :
    LoadAll a = some (a.spec.defaults ++ a.spec.routes, a) ∧
    step a Event.getAll = some (a, Output.snapshot { routes := a.spec.routes }) := by
  constructor
  · simp [LoadAll, step, hrun]
  · simp [step, hrun]

/-- Witness for C9: a snapshot taken while a diff is pending returns the full
table and leaves the pending diff in place. -/
theorem snapshot_leaves_slot_unchanged_witness :
    LoadAll ⟨⟨[⟨"A", "a"⟩], [⟨"p", "1"⟩]⟩, true, ⟨[⟨"p", "1"⟩], [], false⟩, true⟩ =
      some ([⟨"A", "a"⟩, ⟨"p", "1"⟩],
        ⟨⟨[⟨"A", "a"⟩], [⟨"p", "1"⟩]⟩, true, ⟨[⟨"p", "1"⟩], [], false⟩, true⟩) :=
  (snapshot_leaves_slot_unchanged _ rfl).1

/-- C2 (code bug in `Close`/`LoadUpdate`): once the run loop has observed the
stop signal, no select arm ever fires again — no request is served, but also
no delivery to a blocked `LoadUpdate` caller ever happens, so such a caller
is never released (the spec requires it to be released). -/
theorem stopped_actor_never_releases (a : ActorState) (e : Event)
    (hstop : a.running = false) :
    step a e = none ∧ LoadUpdate a = none := by
  constructor
  · simp [step, hstop]
  · simp [LoadUpdate, step, hstop]

/-- Witness for C2: even with a pending diff armed for delivery, a stopped
actor delivers nothing to a blocked consumer. -/
theorem stopped_actor_never_releases_witness :
    step ⟨⟨[], [⟨"p", "1"⟩]⟩, true, ⟨[⟨"p", "1"⟩], [], false⟩, false⟩ Event.deliver =
        none ∧
      LoadUpdate ⟨⟨[], [⟨"p", "1"⟩]⟩, true, ⟨[⟨"p", "1"⟩], [], false⟩, false⟩ = none :=
  stopped_actor_never_releases _ Event.deliver rfl

/-- C3: after a root Replace (PUT or POST on the root path) the working set is
exactly the supplied set deduplicated (first occurrence wins, per the
spec-side `specUnique`) with all default-set identifiers removed; the
defaults themselves are untouched. -/
theorem replace_is_true_set_replace (s : SpecState) (rs : List Route)
    (ids : List String) :
    (handle s ⟨"", "PUT", rs, ids⟩).1.routes =
        (specUnique rs).filter (fun r => !hasId s.defaults r.id) ∧
    (handle s ⟨"", "POST", rs, ids⟩).1.routes =
        (specUnique rs).filter (fun r => !hasId s.defaults r.id) ∧
    (handle s ⟨"", "PUT", rs, ids⟩).1.defaults = s.defaults := by
  refine ⟨?_, ?_, rfl⟩
  · show removeRoutes (uniqueRoutes rs) s.defaults = _
    rw [removeRoutes_eq_filter, uniqueRoutes_eq_specUnique]
  · show removeRoutes (uniqueRoutes rs) s.defaults = _
    rw [removeRoutes_eq_filter, uniqueRoutes_eq_specUnique]

/-- C1: when a mutation commits a non-empty diff while the pending slot is
still occupied, the slot is overwritten with the MissedUpdate marker (the
diffs are not merged), the consumer's next `LoadUpdate` receives exactly that
error, and the mutating request still gets its normal, error-free response. -/
theorem second_commit_becomes_missed_update (a : ActorState) (req : Request)
    (hrun : a.running = true) (harm : a.relayArmed = true)
    (hdata : (handle a.spec req).2.2.hasData = true) :
    step a (Event.request req) =
        some ({ a with spec := (handle a.spec req).1,
                       updateToSend := missedMessage },
          Output.responded (handle a.spec req).2.1) ∧
    (handle a.spec req).2.1.err = none ∧
    LoadUpdate { a with spec := (handle a.spec req).1,
                        updateToSend := missedMessage } =
      some (([], [], true),
        { a with spec := (handle a.spec req).1, relayArmed := false,
                 updateToSend := missedMessage }) := by
  refine ⟨?_, ?_, ?_⟩
  · simp [step, hrun, harm, hdata]
  · by_contra herr
    have h2 := (handle_error_frame a.spec req herr).2
    rw [h2] at hdata
    simp [UpdateMessage.hasData] at hdata
  · simp [LoadUpdate, step, hrun, harm, missedMessage]

/-- Witness for C1: a second root Replace arriving before the first diff was
consumed turns the slot into the missed marker while the request succeeds. -/
theorem second_commit_becomes_missed_update_witness :
    (⟨⟨[], []⟩, true, ⟨[⟨"old", "b"⟩], [], false⟩, true⟩ : ActorState).running = true ∧
    (handle (⟨[], []⟩ : SpecState) ⟨"", "PUT", [⟨"foo", "x"⟩], []⟩).2.2.hasData = true ∧
    (step ⟨⟨[], []⟩, true, ⟨[⟨"old", "b"⟩], [], false⟩, true⟩
        (Event.request ⟨"", "PUT", [⟨"foo", "x"⟩], []⟩) =
      some (⟨⟨[], [⟨"foo", "x"⟩]⟩, true, missedMessage, true⟩,
        Output.responded {}) ∧
      (handle (⟨[], []⟩ : SpecState) ⟨"", "PUT", [⟨"foo", "x"⟩], []⟩).2.1.err = none ∧
      LoadUpdate ⟨⟨[], [⟨"foo", "x"⟩]⟩, true, missedMessage, true⟩ =
        some (([], [], true), ⟨⟨[], [⟨"foo", "x"⟩]⟩, false, missedMessage, true⟩)) :=
  ⟨rfl, by decide,
    second_commit_becomes_missed_update
      ⟨⟨[], []⟩, true, ⟨[⟨"old", "b"⟩], [], false⟩, true⟩
      ⟨"", "PUT", [⟨"foo", "x"⟩], []⟩ rfl rfl (by decide)⟩

/-- C10: the pending-slot lifecycle. A commit with the slot empty fills it
with the committed diff; a commit with the slot occupied (whatever it holds)
leaves it holding the missed marker and nothing else; delivery always empties
the slot and yields its content; and after a fill the delivery hands over
exactly the committed diff. -/
theorem relay_slot_lifecycle :
    (∀ (a : ActorState) (req : Request), a.running = true → a.relayArmed = false →
      (handle a.spec req).2.2.hasData = true →
      step a (Event.request req) =
        some ({ a with spec := (handle a.spec req).1, relayArmed := true,
                       updateToSend := (handle a.spec req).2.2 },
          Output.responded (handle a.spec req).2.1)) ∧
    (∀ (a : ActorState) (req : Request), a.running = true → a.relayArmed = true →
      (handle a.spec req).2.2.hasData = true →
      step a (Event.request req) =
        some ({ a with spec := (handle a.spec req).1,
                       updateToSend := missedMessage },
          Output.responded (handle a.spec req).2.1)) ∧
    (∀ a : ActorState, a.running = true → a.relayArmed = true →
      step a Event.deliver =
        some ({ a with relayArmed := false }, Output.delivered a.updateToSend)) ∧
    (∀ (a : ActorState) (req : Request), a.running = true → a.relayArmed = false →
      (handle a.spec req).2.2.hasData = true →
      LoadUpdate { a with spec := (handle a.spec req).1, relayArmed := true,
                          updateToSend := (handle a.spec req).2.2 } =
        some ((((handle a.spec req).2.2).routes,
               ((handle a.spec req).2.2).deletedIDs,
               ((handle a.spec req).2.2).err),
          { a with spec := (handle a.spec req).1, relayArmed := false,
                   updateToSend := (handle a.spec req).2.2 })) := by
  refine ⟨?_, ?_, ?_, ?_⟩
  · intro a req hrun harm hdata
    simp [step, hrun, harm, hdata]
  · intro a req hrun harm hdata
    simp [step, hrun, harm, hdata]
  · intro a hrun harm
    simp [step, hrun, harm]
  · intro a req hrun harm hdata
    simp [LoadUpdate, step, hrun]

/-- Witness for C10: the lifecycle on a concrete request against an empty and
then an occupied slot, and a concrete delivery. -/
theorem relay_slot_lifecycle_witness :
    (handle (⟨[], []⟩ : SpecState) ⟨"", "PUT", [⟨"foo", "x"⟩], []⟩).2.2.hasData = true ∧
    step ⟨⟨[], []⟩, false, ⟨[], [], false⟩, true⟩
        (Event.request ⟨"", "PUT", [⟨"foo", "x"⟩], []⟩) =
      some (⟨⟨[], [⟨"foo", "x"⟩]⟩, true, ⟨[⟨"foo", "x"⟩], [], false⟩, true⟩,
        Output.responded {}) ∧
    step ⟨⟨[], []⟩, true, ⟨[⟨"q", "z"⟩], [], false⟩, true⟩
        (Event.request ⟨"", "PUT", [⟨"foo", "x"⟩], []⟩) =
      some (⟨⟨[], [⟨"foo", "x"⟩]⟩, true, missedMessage, true⟩, Output.responded {}) ∧
    step ⟨⟨[], []⟩, true, ⟨[⟨"q", "z"⟩], [], false⟩, true⟩ Event.deliver =
      some (⟨⟨[], []⟩, false, ⟨[⟨"q", "z"⟩], [], false⟩, true⟩,
        Output.delivered ⟨[⟨"q", "z"⟩], [], false⟩) ∧
    LoadUpdate ⟨⟨[], [⟨"foo", "x"⟩]⟩, true, ⟨[⟨"foo", "x"⟩], [], false⟩, true⟩ =
      some (([⟨"foo", "x"⟩], [], false),
        ⟨⟨[], [⟨"foo", "x"⟩]⟩, false, ⟨[⟨"foo", "x"⟩], [], false⟩, true⟩) :=
  ⟨by decide,
    relay_slot_lifecycle.1 ⟨⟨[], []⟩, false, ⟨[], [], false⟩, true⟩
      ⟨"", "PUT", [⟨"foo", "x"⟩], []⟩ rfl rfl (by decide),
    relay_slot_lifecycle.2.1 ⟨⟨[], []⟩, true, ⟨[⟨"q", "z"⟩], [], false⟩, true⟩
      ⟨"", "PUT", [⟨"foo", "x"⟩], []⟩ rfl rfl (by decide),
    relay_slot_lifecycle.2.2.1 ⟨⟨[], []⟩, true, ⟨[⟨"q", "z"⟩], [], false⟩, true⟩
      rfl rfl,
    relay_slot_lifecycle.2.2.2 ⟨⟨[], []⟩, false, ⟨[], [], false⟩, true⟩
      ⟨"", "PUT", [⟨"foo", "x"⟩], []⟩ rfl rfl (by decide)⟩

/-- An upsert keeps, for every prior route, some route with the same id. -/
theorem upsert_id_preserved (to_ from_ : List Route) (w : Route)
    (hw : w ∈ to_) :
    ∃ r ∈ (upsertRoutes to_ from_).1, r.id = w.id := by
  by_cases h : hasId (upsertRoutes to_ from_).2 w.id = true
  · obtain ⟨u, hu, huid⟩ := (hasId_iff_exists _ _).mp h
    refine ⟨u, ?_, huid⟩
    show u ∈ removeRoutes to_ (upsertRoutes to_ from_).2 ++ (upsertRoutes to_ from_).2
    exact List.mem_append_right _ hu
  · have h' : hasId (upsertRoutes to_ from_).2 w.id = false := by simpa using h
    refine ⟨w, ?_, rfl⟩
    show w ∈ removeRoutes to_ (upsertRoutes to_ from_).2 ++ (upsertRoutes to_ from_).2
    exact List.mem_append_left _ ((mem_removeRoutes _ _ _).mpr ⟨hw, h'⟩)

/-- C6: a root Upsert (PATCH on the root path) keeps every prior working-set
record whose id is absent from the supplied set, exactly as it was; and it
never deletes a record — every prior id is still present and the published
diff deletes nothing. -/
theorem upsert_never_deletes (s : SpecState) (req : Request) :
    (∀ w ∈ s.routes, hasId req.routes w.id = false →
      w ∈ (patchInRoot s req).1.routes) ∧
    (∀ w ∈ s.routes, ∃ r ∈ (patchInRoot s req).1.routes, r.id = w.id) ∧
    (patchInRoot s req).2.deletedIDs = [] := by
  refine ⟨?_, ?_, rfl⟩
  · intro w hw habs
    show w ∈ (upsertRoutes s.routes
      (removeRoutes (uniqueRoutes req.routes) s.defaults)).1
    apply upsert_frame _ _ _ hw
    rw [hasId_false_iff] at habs ⊢
    simp only [routesToIDs, List.mem_map] at habs ⊢
    rintro ⟨y, hy, hyw⟩
    have hy1 := (mem_removeRoutes _ _ _).mp hy
    exact habs ⟨y, mem_uniqueRoutes_sub _ _ hy1.1, hyw⟩
  · intro w hw
    show ∃ r ∈ (upsertRoutes s.routes
      (removeRoutes (uniqueRoutes req.routes) s.defaults)).1, r.id = w.id
    exact upsert_id_preserved _ _ _ hw

/-- Witness for C6: a record not mentioned by the upsert survives it
unchanged. -/
theorem upsert_never_deletes_witness :
    (⟨"keep", "v"⟩ : Route) ∈ (⟨[], [⟨"keep", "v"⟩]⟩ : SpecState).routes ∧
    hasId [⟨"new", "n"⟩] "keep" = false ∧
    (⟨"keep", "v"⟩ : Route) ∈
      (patchInRoot ⟨[], [⟨"keep", "v"⟩]⟩ ⟨"", "PATCH", [⟨"new", "n"⟩], []⟩).1.routes :=
  ⟨by decide, by decide,
    (upsert_never_deletes ⟨[], [⟨"keep", "v"⟩]⟩ ⟨"", "PATCH", [⟨"new", "n"⟩], []⟩).1
      ⟨"keep", "v"⟩ (by decide) (by decide)⟩

/-- C8: an individual Delete reports NotFound exactly when the target id is
absent from the working set; a default id is always retrievable via Get (it
is found across defaults ++ routes) while Delete on it — which consults only
the working set, disjoint from the defaults — reports NotFound. -/
theorem default_read_delete_asymmetry (s : SpecState) (req : Request) :
    ((del s req).2.1.err = some RespErr.notFound ↔
      req.id ∉ routesToIDs s.routes) ∧
    (∀ d, d ∈ routesToIDs s.defaults →
      (get s ⟨d, req.method, req.routes, req.ids⟩).err = none ∧
      (get s ⟨d, req.method, req.routes, req.ids⟩).withContent = true) ∧
    (∀ d, d ∈ routesToIDs s.defaults → d ∉ routesToIDs s.routes →
      (del s ⟨d, req.method, req.routes, req.ids⟩).2.1.err =
        some RespErr.notFound) := by
  refine ⟨?_, ?_, ?_⟩
  · by_cases h : (idsToRoutes [req.id] s.routes).length = 0
    · constructor
      · intro _
        rw [← hasId_false_iff, ← idsToRoutes_single_nil_iff]
        exact List.length_eq_zero.mp h
      · intro _
        simp [del, h]
    · constructor
      · intro herr
        have hnone : (del s req).2.1.err = none := by simp [del, h]
        rw [hnone] at herr
        cases herr
      · intro habs
        exfalso
        apply h
        rw [List.length_eq_zero, idsToRoutes_single_nil_iff, hasId_false_iff]
        exact habs
  · intro d hd
    have hfind : hasId (s.defaults ++ s.routes) d = true := by
      rw [hasId_append, (hasId_iff s.defaults d).mpr hd]
      rfl
    have hlen : ¬(idsToRoutes [d] (s.defaults ++ s.routes)).length = 0 := by
      rw [List.length_eq_zero]
      intro h0
      rw [idsToRoutes_single_nil_iff] at h0
      rw [h0] at hfind
      cases hfind
    constructor <;> simp [get, hlen]
  · intro d hd habs
    have h0 : idsToRoutes [d] s.routes = [] := by
      rw [idsToRoutes_single_nil_iff, hasId_false_iff]
      exact habs
    simp [del, h0]

/-- Witness for C8: with default `A` and working set `{p}`, Get of `A`
succeeds and Delete of `A` reports NotFound. -/
theorem default_read_delete_asymmetry_witness :
    ((get ⟨[⟨"A", "a"⟩], [⟨"p", "1"⟩]⟩ ⟨"A", "GET", [], []⟩).err = none ∧
      (get ⟨[⟨"A", "a"⟩], [⟨"p", "1"⟩]⟩ ⟨"A", "GET", [], []⟩).withContent = true) ∧
    (del ⟨[⟨"A", "a"⟩], [⟨"p", "1"⟩]⟩ ⟨"A", "DELETE", [], []⟩).2.1.err =
      some RespErr.notFound :=
  ⟨(default_read_delete_asymmetry ⟨[⟨"A", "a"⟩], [⟨"p", "1"⟩]⟩
      ⟨"x", "GET", [], []⟩).2.1 "A" (by decide),
    (default_read_delete_asymmetry ⟨[⟨"A", "a"⟩], [⟨"p", "1"⟩]⟩
      ⟨"x", "DELETE", [], []⟩).2.2 "A" (by decide) (by decide)⟩

/-- The candidate set built by the first four lines of `deleteFromRoot`:
ids resolved against the working set, unioned with the supplied routes,
deduplicated, stripped of defaults. -/
def deleteCandidates (s : SpecState) (req : Request) : List Route :=
  removeRoutes (uniqueRoutes (idsToRoutes req.ids s.routes ++ req.routes))
    s.defaults

/-- C5: a root Delete removes from the working set exactly the candidates
whose id is currently present; candidates not present are ignored without any
error, and the published deletedIDs are exactly the candidate ids that were
present (the ids of the removed records). -/
theorem delete_removes_exactly_present (s : SpecState) (req : Request) :
    (deleteFromRoot s req).1.routes =
      s.routes.filter (fun r => !hasId (deleteCandidates s req) r.id) ∧
    (∀ i, i ∈ (deleteFromRoot s req).2.deletedIDs ↔
      i ∈ routesToIDs (deleteCandidates s req) ∧ i ∈ routesToIDs s.routes) ∧
    (deleteFromRoot s req).2.err = false ∧
    (handleRoot s req).2.1.err = none := by
  have hc3 : removeRoutes (deleteCandidates s req)
        (removeRoutes (deleteCandidates s req) s.routes) =
      (deleteCandidates s req).filter (fun x => hasId s.routes x.id) :=
    removeRoutes_double _ _
  refine ⟨?_, ?_, rfl, handleRoot_err_none s req⟩
  · show removeRoutes s.routes
      (removeRoutes (deleteCandidates s req)
        (removeRoutes (deleteCandidates s req) s.routes)) = _
    rw [hc3, removeRoutes_eq_filter]
    apply List.filter_congr
    intro r hr
    congr 1
    by_cases h : hasId (deleteCandidates s req) r.id = true
    · obtain ⟨c, hc, hcid⟩ := (hasId_iff_exists _ _).mp h
      have hcr : hasId s.routes c.id = true := by
        rw [hcid]
        exact (hasId_iff_exists _ _).mpr ⟨r, hr, rfl⟩
      rw [h]
      exact (hasId_iff_exists _ _).mpr
        ⟨c, List.mem_filter.mpr ⟨hc, hcr⟩, hcid⟩
    · have h' : hasId (deleteCandidates s req) r.id = false := by simpa using h
      rw [h']
      rw [hasId_false_iff] at h' ⊢
      simp only [routesToIDs, List.mem_map] at h' ⊢
      rintro ⟨x, hx, hxid⟩
      exact h' ⟨x, (List.mem_filter.mp hx).1, hxid⟩
  · intro i
    show i ∈ routesToIDs
        (removeRoutes (deleteCandidates s req)
          (removeRoutes (deleteCandidates s req) s.routes)) ↔ _
    rw [hc3]
    simp only [routesToIDs, List.mem_map, List.mem_filter]
    constructor
    · rintro ⟨x, ⟨hx, hpres⟩, hxid⟩
      refine ⟨⟨x, hx, hxid⟩, ?_⟩
      rw [← hxid]
      obtain ⟨y, hy, hyid⟩ := (hasId_iff_exists _ _).mp hpres
      exact ⟨y, hy, hyid⟩
    · rintro ⟨⟨x, hx, hxid⟩, hi⟩
      refine ⟨x, ⟨hx, ?_⟩, hxid⟩
      rw [hxid]
      obtain ⟨y, hy, hyid⟩ := hi
      exact (hasId_iff_exists _ _).mpr ⟨y, hy, hyid⟩

/-! ## Defaults are never touched: auxiliary lemmas -/

theorem put_defaults (s : SpecState) (req : Request) :
    (put s req).1.defaults = s.defaults := by
  simp only [put]
  split
  · rfl
  · split <;> rfl

theorem patch_defaults (s : SpecState) (req : Request) :
    (patch s req).1.defaults = s.defaults := by
  simp only [patch]
  split
  · rfl
  · split
    · rfl
    · split <;> rfl

theorem del_defaults (s : SpecState) (req : Request) :
    (del s req).1.defaults = s.defaults := by
  rw [del]
  split <;> rfl

theorem handle_defaults (s : SpecState) (req : Request) :
    (handle s req).1.defaults = s.defaults := by
  rw [handle]
  by_cases hid : req.id = ""
  · rw [if_pos hid, handleRoot]
    split <;> rfl
  · rw [if_neg hid, handleIndividual]
    split
    · rfl
    · rfl
    · exact put_defaults s req
    · exact put_defaults s req
    · exact patch_defaults s req
    · exact del_defaults s req
    · rfl

theorem put_deletedIDs_nil (s : SpecState) (req : Request) :
    (put s req).2.2.deletedIDs = [] := by
  simp only [put]
  split
  · rfl
  · split <;> rfl

theorem patch_deletedIDs_nil (s : SpecState) (req : Request) :
    (patch s req).2.2.deletedIDs = [] := by
  simp only [patch]
  split
  · rfl
  · split
    · rfl
    · split <;> rfl

theorem putRoot_deleted_sub (s : SpecState) (req : Request) :
    ∀ i ∈ (putRoot s req).2.deletedIDs, i ∈ routesToIDs s.routes := by
  intro i hi
  have hi' : i ∈ routesToIDs (removeRoutes s.routes
      (removeRoutes (uniqueRoutes req.routes) s.defaults)) := hi
  simp only [routesToIDs, List.mem_map] at hi' ⊢
  obtain ⟨r, hr, hrid⟩ := hi'
  exact ⟨r, ((mem_removeRoutes _ _ _).mp hr).1, hrid⟩

theorem deleteFromRoot_deleted_nodefault (s : SpecState) (req : Request) :
    ∀ i ∈ (deleteFromRoot s req).2.deletedIDs, hasId s.defaults i = false := by
  intro i hi
  have hi' : i ∈ routesToIDs (removeRoutes (deleteCandidates s req)
      (removeRoutes (deleteCandidates s req) s.routes)) := hi
  simp only [routesToIDs, List.mem_map] at hi'
  obtain ⟨r, hr, hrid⟩ := hi'
  have hr1 := (mem_removeRoutes _ _ _).mp hr
  have hr2 := (mem_removeRoutes _ _ _).mp hr1.1
  exact hrid ▸ hr2.2

theorem del_deleted_sub (s : SpecState) (req : Request) :
    ∀ i ∈ (del s req).2.2.deletedIDs, i ∈ routesToIDs s.routes := by
  intro i hi
  rw [del] at hi
  split at hi
  · cases hi
  · simp only [routesToIDs, List.mem_map] at hi ⊢
    obtain ⟨r, hr, hrid⟩ := hi
    exact ⟨r, (mem_idsToRoutes _ _ _ hr).1, hrid⟩

/-! ## The working set stays disjoint from the defaults -/

theorem putRoot_disjoint (s : SpecState) (req : Request) :
    ∀ r ∈ (putRoot s req).1.routes, hasId s.defaults r.id = false := by
  intro r hr
  have hr' : r ∈ removeRoutes (uniqueRoutes req.routes) s.defaults := hr
  exact ((mem_removeRoutes _ _ _).mp hr').2

theorem patchInRoot_disjoint (s : SpecState) (req : Request)
    (hdisj : ∀ r ∈ s.routes, hasId s.defaults r.id = false) :
    ∀ r ∈ (patchInRoot s req).1.routes, hasId s.defaults r.id = false := by
  intro r hr
  have hr' : r ∈ (upsertRoutes s.routes
      (removeRoutes (uniqueRoutes req.routes) s.defaults)).1 := hr
  rcases upsert_next_mem _ _ _ hr' with h | h
  · exact hdisj r h
  · exact ((mem_removeRoutes _ _ _).mp h).2

theorem deleteFromRoot_disjoint (s : SpecState) (req : Request)
    (hdisj : ∀ r ∈ s.routes, hasId s.defaults r.id = false) :
    ∀ r ∈ (deleteFromRoot s req).1.routes, hasId s.defaults r.id = false := by
  intro r hr
  have hr' : r ∈ removeRoutes s.routes
      (removeRoutes (deleteCandidates s req)
        (removeRoutes (deleteCandidates s req) s.routes)) := hr
  exact hdisj r ((mem_removeRoutes _ _ _).mp hr').1

theorem put_disjoint (s : SpecState) (req : Request)
    (hdisj : ∀ r ∈ s.routes, hasId s.defaults r.id = false) :
    ∀ r ∈ (put s req).1.routes, hasId s.defaults r.id = false := by
  intro r hr
  simp only [put] at hr
  split at hr
  · exact hdisj r hr
  · split at hr
    · exact hdisj r hr
    · have hr' : r ∈ (upsertRoutes s.routes
          (removeRoutes (forceHeadId req.id req.routes) s.defaults)).1 := hr
      rcases upsert_next_mem _ _ _ hr' with h | h
      · exact hdisj r h
      · exact ((mem_removeRoutes _ _ _).mp h).2

theorem patch_disjoint (s : SpecState) (req : Request)
    (hdisj : ∀ r ∈ s.routes, hasId s.defaults r.id = false) :
    ∀ r ∈ (patch s req).1.routes, hasId s.defaults r.id = false := by
  intro r hr
  simp only [patch] at hr
  split at hr
  · exact hdisj r hr
  · split at hr
    · exact hdisj r hr
    · split at hr
      · exact hdisj r hr
      · rename_i h1 h2 h3
        have hr' : r ∈ (upsertRoutes s.routes
            (forceHeadId req.id req.routes)).1 := hr
        rcases upsert_next_mem _ _ _ hr' with h | h
        · exact hdisj r h
        · have hid : hasId s.defaults req.id = false := by
            by_contra hcon
            have hcon' : hasId s.defaults req.id = true := by simpa using hcon
            apply h3
            rw [List.length_eq_zero, removeRoutes_eq_filter, idsToRoutes_single]
            cases hf : (s.defaults ++ s.routes).find? (fun x => x.id == req.id) with
            | none => rfl
            | some r0 =>
                have hr0 := List.find?_some hf
                simp only [beq_iff_eq] at hr0
                simp [List.filter_cons, hr0, hcon']
          have hlen := not_not.mp h2
          obtain ⟨rr, hrr⟩ := List.length_eq_one.mp hlen
          rw [hrr] at h
          have hrid : r = { rr with id := req.id } := by
            simpa [forceHeadId] using h
          rw [hrid]
          exact hid

theorem del_disjoint (s : SpecState) (req : Request)
    (hdisj : ∀ r ∈ s.routes, hasId s.defaults r.id = false) :
    ∀ r ∈ (del s req).1.routes, hasId s.defaults r.id = false := by
  intro r hr
  rw [del] at hr
  split at hr
  · exact hdisj r hr
  · exact hdisj r ((mem_removeRoutes _ _ _).mp hr).1

/-- Every handler preserves the invariant that the working set contains no
default identifier (so it holds in every reachable state: the working set
starts empty). -/
theorem handle_disjoint (s : SpecState) (req : Request)
    (hdisj : ∀ r ∈ s.routes, hasId s.defaults r.id = false) :
    ∀ r ∈ (handle s req).1.routes, hasId s.defaults r.id = false := by
  intro r hr
  rw [handle] at hr
  by_cases hid : req.id = ""
  · rw [if_pos hid, handleRoot] at hr
    split at hr
    · exact hdisj r hr
    · exact hdisj r hr
    · exact putRoot_disjoint s req r hr
    · exact putRoot_disjoint s req r hr
    · exact patchInRoot_disjoint s req hdisj r hr
    · exact deleteFromRoot_disjoint s req hdisj r hr
    · exact hdisj r hr
  · rw [if_neg hid, handleIndividual] at hr
    split at hr
    · exact hdisj r hr
    · exact hdisj r hr
    · exact put_disjoint s req hdisj r hr
    · exact put_disjoint s req hdisj r hr
    · exact patch_disjoint s req hdisj r hr
    · exact del_disjoint s req hdisj r hr
    · exact hdisj r hr

/-- C4: for a default identifier `d` (given the maintained invariant that the
working set holds no default id), Put, Patch and Delete targeting `d` leave
the working set unchanged and publish no diff; no published diff of any
request ever lists `d` among its deletedIDs; after any request, `d` is still
present in the read-all results; and every handler preserves the
invariant. -/
theorem default_protection (s : SpecState) (d : String)
    (hd : d ∈ routesToIDs s.defaults)
    (hdisj : ∀ r ∈ s.routes, hasId s.defaults r.id = false) :
    (∀ req : Request, req.id = d →
      (put s req).1 = s ∧ (put s req).2.2.hasData = false ∧
      (patch s req).1 = s ∧ (patch s req).2.2.hasData = false ∧
      (del s req).1 = s ∧ (del s req).2.2.hasData = false) ∧
    (∀ req : Request, d ∉ (handle s req).2.2.deletedIDs) ∧
    (∀ req req' : Request,
      d ∈ routesToIDs ((getRoot (handle s req).1 req').routes)) ∧
    (∀ req : Request, ∀ r ∈ (handle s req).1.routes,
      hasId s.defaults r.id = false) := by
  have hdd : hasId s.defaults d = true := (hasId_iff _ _).mpr hd
  have hroutes_d : hasId s.routes d = false := by
    by_contra hcon
    have hcon' : hasId s.routes d = true := by simpa using hcon
    obtain ⟨r, hr, hrid⟩ := (hasId_iff_exists _ _).mp hcon'
    have hfalse := hdisj r hr
    rw [hrid, hdd] at hfalse
    cases hfalse
  refine ⟨?_, ?_, ?_, fun req => handle_disjoint s req hdisj⟩
  · intro req hreq
    have hput : (put s req).1 = s ∧ (put s req).2.2.hasData = false := by
      by_cases h1 : req.routes.length ≠ 1
      · constructor <;> simp [put, h1, UpdateMessage.hasData]
      · have hlen := not_not.mp h1
        obtain ⟨rr, hrr⟩ := List.length_eq_one.mp hlen
        have h2 : (removeRoutes (forceHeadId req.id req.routes)
            s.defaults).length = 0 := by
          rw [hrr, removeRoutes_eq_filter]
          simp [forceHeadId, List.filter_cons, hreq, hdd]
        constructor <;> simp [put, h1, h2, UpdateMessage.hasData]
    have hpatch : (patch s req).1 = s ∧ (patch s req).2.2.hasData = false := by
      have hc3 : (removeRoutes (idsToRoutes [req.id] (s.defaults ++ s.routes))
          s.defaults).length = 0 := by
        rw [idsToRoutes_single]
        cases hf : (s.defaults ++ s.routes).find? (fun r => r.id == req.id) with
        | none => rfl
        | some r0 =>
            have hr0 := List.find?_some hf
            simp only [beq_iff_eq] at hr0
            rw [removeRoutes_eq_filter]
            simp [List.filter_cons, hr0, hreq, hdd]
      by_cases hc1 : (idsToRoutes [req.id] (s.defaults ++ s.routes)).length = 0
      · constructor <;> simp [patch, hc1, UpdateMessage.hasData]
      · by_cases hc2 : req.routes.length ≠ 1
        · constructor <;> simp [patch, hc1, hc2, UpdateMessage.hasData]
        · constructor <;> simp [patch, hc1, hc2, hc3, UpdateMessage.hasData]
    have hdel : (del s req).1 = s ∧ (del s req).2.2.hasData = false := by
      have h0 : (idsToRoutes [req.id] s.routes).length = 0 := by
        rw [List.length_eq_zero, idsToRoutes_single_nil_iff, hreq]
        exact hroutes_d
      constructor <;> simp [del, h0, UpdateMessage.hasData]
    exact ⟨hput.1, hput.2, hpatch.1, hpatch.2, hdel.1, hdel.2⟩
  · intro req hmem
    rw [handle] at hmem
    by_cases hid : req.id = ""
    · rw [if_pos hid, handleRoot] at hmem
      split at hmem
      · cases hmem
      · cases hmem
      · have := putRoot_deleted_sub s req d hmem
        rw [← hasId_iff] at this
        rw [this] at hroutes_d
        cases hroutes_d
      · have := putRoot_deleted_sub s req d hmem
        rw [← hasId_iff] at this
        rw [this] at hroutes_d
        cases hroutes_d
      · have hnil : d ∈ ([] : List String) := hmem
        cases hnil
      · have := deleteFromRoot_deleted_nodefault s req d hmem
        rw [this] at hdd
        cases hdd
      · cases hmem
    · rw [if_neg hid, handleIndividual] at hmem
      split at hmem
      · cases hmem
      · cases hmem
      · rw [put_deletedIDs_nil] at hmem
        cases hmem
      · rw [put_deletedIDs_nil] at hmem
        cases hmem
      · rw [patch_deletedIDs_nil] at hmem
        cases hmem
      · have := del_deleted_sub s req d hmem
        rw [← hasId_iff] at this
        rw [this] at hroutes_d
        cases hroutes_d
      · cases hmem
  · intro req req'
    have hdef := handle_defaults s req
    show d ∈ routesToIDs ((handle s req).1.routes ++ (handle s req).1.defaults)
    rw [routesToIDs, List.map_append]
    apply List.mem_append_right
    rw [hdef]
    exact hd

/-- Witness for C4: with default `A` and working set `{p}`, a Put, Patch and
Delete targeting `A` all leave the state alone with no diff, a root Delete
naming `A` does not list it as deleted, and `A` stays readable. -/
theorem default_protection_witness :
    ((put ⟨[⟨"A", "a"⟩], [⟨"p", "1"⟩]⟩ ⟨"A", "PUT", [⟨"", "x"⟩], []⟩).1 =
        ⟨[⟨"A", "a"⟩], [⟨"p", "1"⟩]⟩ ∧
      (put ⟨[⟨"A", "a"⟩], [⟨"p", "1"⟩]⟩ ⟨"A", "PUT", [⟨"", "x"⟩], []⟩).2.2.hasData =
        false ∧
      (patch ⟨[⟨"A", "a"⟩], [⟨"p", "1"⟩]⟩ ⟨"A", "PUT", [⟨"", "x"⟩], []⟩).1 =
        ⟨[⟨"A", "a"⟩], [⟨"p", "1"⟩]⟩ ∧
      (patch ⟨[⟨"A", "a"⟩], [⟨"p", "1"⟩]⟩ ⟨"A", "PUT", [⟨"", "x"⟩], []⟩).2.2.hasData =
        false ∧
      (del ⟨[⟨"A", "a"⟩], [⟨"p", "1"⟩]⟩ ⟨"A", "PUT", [⟨"", "x"⟩], []⟩).1 =
        ⟨[⟨"A", "a"⟩], [⟨"p", "1"⟩]⟩ ∧
      (del ⟨[⟨"A", "a"⟩], [⟨"p", "1"⟩]⟩ ⟨"A", "PUT", [⟨"", "x"⟩], []⟩).2.2.hasData =
        false) ∧
    "A" ∉ (handle ⟨[⟨"A", "a"⟩], [⟨"p", "1"⟩]⟩
        ⟨"", "DELETE", [], ["A", "p"]⟩).2.2.deletedIDs ∧
    "A" ∈ routesToIDs ((getRoot (handle ⟨[⟨"A", "a"⟩], [⟨"p", "1"⟩]⟩
        ⟨"", "DELETE", [], ["A", "p"]⟩).1 ⟨"", "GET", [], []⟩).routes) :=
  ⟨(default_protection ⟨[⟨"A", "a"⟩], [⟨"p", "1"⟩]⟩ "A" (by decide)
        (by decide)).1 ⟨"A", "PUT", [⟨"", "x"⟩], []⟩ rfl,
    (default_protection ⟨[⟨"A", "a"⟩], [⟨"p", "1"⟩]⟩ "A" (by decide)
        (by decide)).2.1 ⟨"", "DELETE", [], ["A", "p"]⟩,
    (default_protection ⟨[⟨"A", "a"⟩], [⟨"p", "1"⟩]⟩ "A" (by decide)
        (by decide)).2.2.1 ⟨"", "DELETE", [], ["A", "p"]⟩ ⟨"", "GET", [], []⟩⟩

end Configfilter
